/-
Verification of the gi3d mesh subsystem (MeshBase: Validate, Reset,
MakeVectors, PlaneSize, SetPlane, AddPlane) against its natural-language
specification.  The Go code is embedded shallowly: float32 values are
modelled as exact rationals (every concrete value appearing in the
settled claims is exactly representable in float32, and no settled claim
depends on rounding), Go ints as Int/Nat, uint32 conversion as `% 2^32`,
and the growable mat32 arrays as Lean lists.  Rationals are represented
by a small normalized numerator/denominator type F32 whose operations
the kernel can evaluate.
-/
import Mathlib

namespace Gi3d

/-- Exact-rational model of a float32 value: normalized numerator and
(positive) denominator.  All operations the embedded code performs on
the modelled values are exact, so no rounding is modelled. -/
structure F32 where
n : ℤ
d : ℕ
deriving DecidableEq, Repr

/-- Reduce a fraction to lowest terms (the gcd always divides exactly). -/
def F32.norm (x : F32) : F32 :=
let g := Int.gcd x.n (x.d : ℤ)
if g = 0 then ⟨0, 1⟩ else ⟨x.n / (g : ℤ), x.d / g⟩

/-- Integer-valued rationals. -/
def F32.ofInt (i : ℤ) : F32 := ⟨i, 1⟩

/-- Natural-valued rationals (Go float32(n) for n : uint/int ≥ 0). -/
def F32.ofNat (m : ℕ) : F32 := ⟨(m : ℤ), 1⟩

instance (m : ℕ) : OfNat F32 m := ⟨F32.ofNat m⟩

instance : Add F32 :=
⟨fun a b => F32.norm ⟨a.n * (b.d : ℤ) + b.n * (a.d : ℤ), a.d * b.d⟩⟩

instance : Neg F32 := ⟨fun a => ⟨-a.n, a.d⟩⟩

instance : Sub F32 := ⟨fun a b => a + -b⟩

instance : Mul F32 := ⟨fun a b => F32.norm ⟨a.n * b.n, a.d * b.d⟩⟩

/-- Reciprocal; 0 for 0 (the embedded code never divides by zero: the
only divisors are clamped segment counts ≥ 1 and the constant 255). -/
def F32.inv (x : F32) : F32 :=
if x.n < 0 then ⟨-(x.d : ℤ), x.n.natAbs⟩
else if x.n = 0 then ⟨0, 1⟩
else ⟨(x.d : ℤ), x.n.natAbs⟩

instance : Div F32 := ⟨fun a b => a * b.inv⟩

instance : LT F32 := ⟨fun a b => a.n * (b.d : ℤ) < b.n * (a.d : ℤ)⟩

instance (a b : F32) : Decidable (a < b) := Int.decLt _ _

/-- The three spatial dimensions (mat32.Dims: X, Y, Z). -/
inductive Dims where
| X : Dims
| Y : Dims
| Z : Dims
deriving DecidableEq, Repr

/-- mat32.Vec3: a 3-component vector; float32 components modelled as F32. -/
structure Vec3 where
x : F32
y : F32
z : F32
deriving DecidableEq, Repr

/-- The zero Vec3 (Go zero value mat32.Vec3{}). -/
def Vec3.zero : Vec3 := ⟨0, 0, 0⟩

/-- Modelled from the spec: mat32.Vec3.SetDim (mat32 package of this
repository, not under src/) sets the component selected by the dim. -/
def Vec3.setDim (v : Vec3) (d : Dims) (val : F32) : Vec3 :=
match d with
| Dims.X => { v with x := val }
| Dims.Y => { v with y := val }
| Dims.Z => { v with z := val }

/-- mat32.Vec2, used for texture coordinates. -/
structure Vec2 where
x : F32
y : F32
deriving DecidableEq, Repr

/-- The zero Vec2 (Go zero value mat32.Vec2{}). -/
def Vec2.zero : Vec2 := ⟨0, 0⟩

/-- mat32.Vec4, used for RGBA color values. -/
structure Vec4 where
x : F32
y : F32
z : F32
w : F32
deriving DecidableEq, Repr

/-- Modelled from the spec: gi.Color (gi package of this repository, not
under src/) is an 8-bit RGBA color; components modelled as ℕ (uint8). -/
structure Color where
r : ℕ
g : ℕ
b : ℕ
a : ℕ
deriving DecidableEq, Repr

/-- Modelled from the spec: gi.Color.IsNil reports the all-zero color,
the "nil" color for which SetPlane adds no per-vertex color data. -/
def Color.IsNil (c : Color) : Bool :=
c.r == 0 && c.g == 0 && c.b == 0 && c.a == 0

/-- The nil (zero-value) color. -/
def nilColor : Color := ⟨0, 0, 0, 0⟩

/-- Modelled from the spec: gi3d.ColorToVec4f (this repository, not under
src/) converts an 8-bit RGBA color to four floats in 0..1. -/
def ColorToVec4f (c : Color) : Vec4 :=
⟨F32.ofNat c.r / 255, F32.ofNat c.g / 255, F32.ofNat c.b / 255, F32.ofNat c.a / 255⟩

/-- Sequential element-wise store: writes the values `vs` into `l`
starting at index `i` (the shared core of mat32's Vec*.ToArray and
ArrayU32.Set, which assign `array[idx] = v.X` etc. one slot at a time). -/
def setChunk {α : Type} : List α → ℕ → List α → List α
| l, _, [] => l
| l, i, v :: vs => setChunk (l.set i v) (i+1) vs

/-- Modelled from the spec: mat32.Vec3.ToArray writes the three
components at offsets idx, idx+1, idx+2 of the array. -/
def Vec3.toArray (v : Vec3) (l : List F32) (idx : ℕ) : List F32 :=
setChunk l idx [v.x, v.y, v.z]

/-- Modelled from the spec: mat32.Vec2.ToArray writes the two components
at offsets idx, idx+1 of the array. -/
def Vec2.toArray (v : Vec2) (l : List F32) (idx : ℕ) : List F32 :=
setChunk l idx [v.x, v.y]

/-- Modelled from the spec: mat32.Vec4.ToArray writes the four components
at offsets idx..idx+3 of the array. -/
def Vec4.toArray (v : Vec4) (l : List F32) (idx : ℕ) : List F32 :=
setChunk l idx [v.x, v.y, v.z, v.w]

/-- Modelled from the spec: mat32.ArrayF32.Extend appends n zero elements
("extend the destination arrays by exactly the number of new elements"). -/
def extendF (l : List F32) (n : ℕ) : List F32 :=
l ++ List.replicate n 0

/-- Modelled from the spec: mat32.ArrayU32.Extend appends n zero elements. -/
def extendU (l : List ℕ) (n : ℕ) : List ℕ :=
l ++ List.replicate n 0

/-- Go uint32 conversion of a non-negative int: reduction mod 2^32. -/
def u32 (n : ℕ) : ℕ := n % 2^32

/-- GPU buffer usage hints (gpu.StaticDraw / gpu.DynamicDraw). -/
inductive Usage where
| staticDraw : Usage
| dynamicDraw : Usage
deriving DecidableEq, Repr

/-- Modelled from the spec: the GPU buffer-manager handle
(gpu.BufferMgr, external graphics binding, not under src/), recording the
state MakeVectors manipulates: its vector streams (attribute slot id and
interleave flag), stream length, and index-buffer length. -/
structure BufferMgr where
vecUsage : Usage
streams : List (ℕ × Bool)
vecLen : ℕ
idxLen : ℕ
idxData : List ℕ
deriving DecidableEq, Repr

/-- Modelled from the spec: the scene context supplies a fixed registry of
named vertex-attribute slots (position, normal, texcoord, color)
referenced by stable slot id. -/
structure Scene where
vtxSlot : ℕ
normSlot : ℕ
texSlot : ℕ
clrSlot : ℕ
deriving DecidableEq, Repr

/-- One GPU buffer operation, for tracing what MakeVectors does
(the claim under test is that on validation failure none happen). -/
inductive GpuOp where
| newBufferMgr : GpuOp
| addVectorsBuffer : Usage → GpuOp
| addIndexesBuffer : Usage → GpuOp
| deleteAllVectors : GpuOp
| addVectors : ℕ → Bool → GpuOp
| setLen : ℕ → GpuOp
| setVecData : ℕ → GpuOp
| idxSetLen : ℕ → GpuOp
| idxSet : GpuOp
deriving DecidableEq, Repr

/-- A Go fmt verb argument as passed to fmt.Errorf in Validate.  The
source passes `ms.Name` — the method value itself, not the result of
calling it — which `%v` renders as the function's address, a string
independent of the mesh. -/
inductive GoFmtVal where
| methodVal : GoFmtVal
| goStr : String → GoFmtVal
deriving DecidableEq, Repr

/-- Rendering of a fmt verb argument; `addr` is the runtime address
string that %v prints for a func value. -/
def GoFmtVal.fmt (addr : String) : GoFmtVal → String
| GoFmtVal.methodVal => addr
| GoFmtVal.goStr s => s

/-- The errors Validate can return, carrying the fmt.Errorf arguments of
the corresponding source line. -/
inductive ValidateErr where
| noVerts : GoFmtVal → ValidateErr
| normMismatch : GoFmtVal → ℕ → ℕ → ValidateErr
| texMismatch : GoFmtVal → ℕ → ℕ → ValidateErr
| colorMismatch : GoFmtVal → ℕ → ℕ → ValidateErr
deriving DecidableEq, Repr

/-- The error message each Validate error formats, per the fmt.Errorf
format strings in the source; `addr` is what %v prints for the
(uncalled) method value ms.Name. -/
def ValidateErr.msg (addr : String) : ValidateErr → String
| ValidateErr.noVerts nm =>
  "gi3d.Mesh: " ++ nm.fmt addr ++ " has no verticies"
| ValidateErr.normMismatch nm nln vln =>
  "gi3d.Mesh: " ++ nm.fmt addr ++ " number of Norms: " ++ toString nln ++ " != Vtx: " ++ toString vln
| ValidateErr.texMismatch nm tln vln =>
  "gi3d.Mesh: " ++ nm.fmt addr ++ " number of Tex: " ++ toString tln ++ " != Vtx: " ++ toString vln
| ValidateErr.colorMismatch nm cln vln =>
  "gi3d.Mesh: " ++ nm.fmt addr ++ " number of Colors: " ++ toString cln ++ " != Vtx: " ++ toString vln

/-- MeshBase: the core mesh state.  Vtx/Norm/Tex/Color are the growable
float arrays (F32 model), Idx the uint32 index array (each entry < 2^32 as
produced by the code), Buff the lazily created GPU binding handle. -/
structure MeshBase where
Nm : String
Dynamic : Bool
Trans : Bool
Vtx : List F32
Norm : List F32
Tex : List F32
Idx : List ℕ
Color : List F32
Buff : Option BufferMgr
deriving DecidableEq, Repr

/-- A freshly constructed mesh: all arrays empty, no GPU binding. -/
def mkMesh (nm : String) : MeshBase :=
{ Nm := nm, Dynamic := false, Trans := false,
  Vtx := [], Norm := [], Tex := [], Idx := [], Color := [], Buff := none }

/-- MeshBase.Name returns the name of the mesh. -/
def MeshBase.Name (ms : MeshBase) : String := ms.Nm

/-- MeshBase.HasColor: true if per-vertex colors are present. -/
def MeshBase.HasColor (ms : MeshBase) : Bool := ms.Color.length > 0

/-- MeshBase.IsTransparent. -/
def MeshBase.IsTransparent (ms : MeshBase) : Bool :=
if !ms.HasColor then false else ms.Trans

/-- MeshBase.Reset: sets Vtx, Norm, Tex, Idx, Color to nil.  (The source
does not touch Buff.) -/
def MeshBase.Reset (ms : MeshBase) : MeshBase :=
{ ms with Vtx := [], Norm := [], Tex := [], Idx := [], Color := [] }

/-- MeshBase.Validate: checks vertex-data consistency exactly as the
source does — counts by integer division, empty mesh rejected first,
then Norm, Tex, and (when nonzero) Color counts against the Vtx count.
Returns `none` on success.  Each error carries `GoFmtVal.methodVal`
because the source passes the uncalled method value `ms.Name` to
fmt.Errorf. -/
def MeshBase.Validate (ms : MeshBase) : Option ValidateErr :=
let vln := ms.Vtx.length / 3
if vln = 0 then some (ValidateErr.noVerts GoFmtVal.methodVal)
else
let nln := ms.Norm.length / 3
if nln ≠ vln then some (ValidateErr.normMismatch GoFmtVal.methodVal nln vln)
else
let tln := ms.Tex.length / 2
if tln ≠ vln then some (ValidateErr.texMismatch GoFmtVal.methodVal tln vln)
else
let cln := ms.Color.length / 4
if cln = 0 then none
else if cln ≠ vln then some (ValidateErr.colorMismatch GoFmtVal.methodVal cln vln)
else none

/-- MeshBase.PlaneSize: vertex and index counts of one plane's data,
segment counts clamped to a minimum of 1 (ints.MaxInt). -/
def MeshBase.PlaneSize (_ms : MeshBase) (wsegs hsegs : ℤ) : ℤ × ℤ :=
let wsegs := max wsegs 1
let hsegs := max hsegs 1
((wsegs + 1) * (hsegs + 1), wsegs * hsegs * 6)

/-- MeshBase.MakeVectors: validates, then (re)builds GPU buffer state.
Returns the error (if any), the updated mesh, and the trace of GPU
buffer operations performed.  The early-return on validation failure is
the source's lines 225-228; the success branch models the gpu-package
calls (external to src/) as trace entries plus BufferMgr state. -/
def MeshBase.MakeVectors (ms : MeshBase) (sc : Scene) : Option ValidateErr × MeshBase × List GpuOp :=
match ms.Validate with
| some err => (some err, ms, [])
| none =>
  let (buff, ops0) :=
    match ms.Buff with
    | none =>
      let usg := if ms.Dynamic then Usage.dynamicDraw else Usage.staticDraw
      let b : BufferMgr :=
        { vecUsage := usg, streams := [], vecLen := 0, idxLen := 0, idxData := [] }
      (b, [GpuOp.newBufferMgr, GpuOp.addVectorsBuffer usg,
           GpuOp.addIndexesBuffer Usage.staticDraw])
    | some b => (b, [])
  let hasColor := ms.HasColor
  let nvec : ℕ := if hasColor then 4 else 3
  let (buff, ops1) :=
    if buff.streams.length ≠ nvec then
      let strs := [(sc.vtxSlot, true), (sc.normSlot, true), (sc.texSlot, true)]
      let strs := if hasColor then strs ++ [(sc.clrSlot, false)] else strs
      ({ buff with streams := strs },
       [GpuOp.deleteAllVectors, GpuOp.addVectors sc.vtxSlot true,
        GpuOp.addVectors sc.normSlot true, GpuOp.addVectors sc.texSlot true] ++
       (if hasColor then [GpuOp.addVectors sc.clrSlot false] else []))
    else (buff, [])
  let vln := ms.Vtx.length / 3
  let buff := { buff with vecLen := vln }
  let ops2 := [GpuOp.setLen vln, GpuOp.setVecData sc.vtxSlot,
               GpuOp.setVecData sc.normSlot, GpuOp.setVecData sc.texSlot] ++
              (if hasColor then [GpuOp.setVecData sc.clrSlot] else [])
  let iln := ms.Idx.length
  let buff := { buff with idxLen := iln, idxData := ms.Idx }
  let ops3 := [GpuOp.idxSetLen iln, GpuOp.idxSet]
  (none, { ms with Buff := some buff }, ops0 ++ ops1 ++ ops2 ++ ops3)

/-- The (iy, ix) iteration order of SetPlane's nested loops: iy outer
from 0 to h-1, ix inner from 0 to w-1. -/
def gridCells (h w : ℕ) : List (ℕ × ℕ) :=
match h with
| 0 => []
| Nat.succ h' => gridCells h' w ++ (List.range w).map (fun ix => (h', ix))

/-- The mutable locals threaded through SetPlane's vertex loop: the four
destination arrays, the reused vtx/tex vectors, and the three write
cursors. -/
structure PlaneLoopState where
Vtx : List F32
Norm : List F32
Tex : List F32
Color : List F32
vtx : Vec3
tex : Vec2
vidx : ℕ
tidx : ℕ
cidx : ℕ
deriving DecidableEq, Repr

/-- The values SetPlane fixes before its vertex loop and uses in every
iteration. -/
structure PlaneParams where
waxis : Dims
haxis : Dims
wdim : Dims
segWidth : F32
segHeight : F32
fwdir : F32
fhdir : F32
woff : F32
hoff : F32
zoff : F32
wsegsF : F32
hsegsF : F32
setNorm : Bool
setTex : Bool
norm : Vec3
hasColor : Bool
clrv : Vec4
deriving DecidableEq, Repr

/-- One iteration of SetPlane's vertex loop at grid point (iy, ix):
sets the three dims of the reused vtx vector, writes it (and optionally
the fixed normal, the texture UV, and the color) at the current cursors,
then advances the cursors. -/
def planeVtxStep (p : PlaneParams) (s : PlaneLoopState) (c : ℕ × ℕ) : PlaneLoopState :=
let iy := c.1
let ix := c.2
let v := ((s.vtx.setDim p.waxis (F32.ofNat ix * p.segWidth * p.fwdir + p.woff)).setDim
  p.haxis (F32.ofNat iy * p.segHeight * p.fhdir + p.hoff)).setDim p.wdim p.zoff
let newVtx := v.toArray s.Vtx s.vidx
let newNorm := if p.setNorm then p.norm.toArray s.Norm s.vidx else s.Norm
let texv := if p.setTex then Vec2.mk (F32.ofNat ix / p.wsegsF) (1 - F32.ofNat iy / p.hsegsF) else s.tex
let newTex := if p.setTex then texv.toArray s.Tex s.tidx else s.Tex
let tidx2 := if p.setTex then s.tidx + 2 else s.tidx
let newColor := if p.hasColor then p.clrv.toArray s.Color s.cidx else s.Color
let cidx2 := if p.hasColor then s.cidx + 4 else s.cidx
{ Vtx := newVtx, Norm := newNorm, Tex := newTex, Color := newColor,
  vtx := v, tex := texv, vidx := s.vidx + 3, tidx := tidx2, cidx := cidx2 }

/-- The six index values SetPlane emits for grid cell (iy, ix): the two
triangles (a,b,d) and (b,c,d), each corner offset by stVtxIdx and
converted to uint32. -/
def planeIdxChunk (stVtxIdx wsegs1 : ℕ) (c : ℕ × ℕ) : List ℕ :=
let iy := c.1
let ix := c.2
let a := ix + wsegs1 * iy
let b := ix + wsegs1 * (iy + 1)
let cv := (ix + 1) + wsegs1 * (iy + 1)
let d := (ix + 1) + wsegs1 * iy
[u32 (a + stVtxIdx), u32 (b + stVtxIdx), u32 (d + stVtxIdx),
 u32 (b + stVtxIdx), u32 (cv + stVtxIdx), u32 (d + stVtxIdx)]

/-- One iteration of SetPlane's index loop: writes the cell's six index
values at the running cursor sidx, then advances it by 6. -/
def planeIdxStep (stVtxIdx wsegs1 : ℕ) (s : List ℕ × ℕ) (c : ℕ × ℕ) : List ℕ × ℕ :=
(setChunk s.1 s.2 (planeIdxChunk stVtxIdx wsegs1 c), s.2 + 6)

/-- The array-extension step of SetPlane: when the plane's data reaches
past the current vertex count, extend Vtx/Norm/Tex (and Color when a
color is supplied) by exactly the missing number of elements. -/
def planeExt (ms : MeshBase) (stVtxIdx vtxSz : ℕ) (hasColor : Bool) : MeshBase :=
let sz := ms.Vtx.length / 3
if sz < stVtxIdx + vtxSz then
  let dif := stVtxIdx + vtxSz - sz
  { ms with Vtx := extendF ms.Vtx (dif * 3), Norm := extendF ms.Norm (dif * 3),
            Tex := extendF ms.Tex (dif * 2),
            Color := if hasColor then extendF ms.Color (dif * 4) else ms.Color }
else ms

/-- SetPlane's vertex loop: fold of planeVtxStep over the grid, starting
from the extended arrays with cursors at the starting vertex index. -/
def planeVtxRun (p : PlaneParams) (hsegs1 wsegs1 stVtxIdx : ℕ) (ms1 : MeshBase) : PlaneLoopState :=
(gridCells hsegs1 wsegs1).foldl (planeVtxStep p)
  { Vtx := ms1.Vtx, Norm := ms1.Norm, Tex := ms1.Tex, Color := ms1.Color,
    vtx := Vec3.zero, tex := Vec2.zero, vidx := stVtxIdx * 3,
    tidx := stVtxIdx * 2, cidx := stVtxIdx * 4 }

/-- SetPlane's index part: extend Idx as needed, then fold the index
loop over the grid cells starting at stIdxIdx. -/
def planeNewIdx (idxArr : List ℕ) (stVtxIdx stIdxIdx wsegs1 wsegsN hsegsN idxSz : ℕ) : List ℕ :=
let lidx := idxArr.length
let idx0 := if lidx < stIdxIdx + idxSz then extendU idxArr (stIdxIdx + idxSz - lidx) else idxArr
((gridCells hsegsN wsegsN).foldl (planeIdxStep stVtxIdx wsegs1) (idx0, stIdxIdx)).1

/-- MeshBase.SetPlane: sets plane vertex data (optionally norm, texUV,
color, and indexes) at the given starting vertex index and starting Idx
index, following the source line by line: normal-axis selection,
clamping, normal sign from zoff, direction/offset adjustment, array
extension, the row-major vertex loop, and the optional index loop. -/
def MeshBase.SetPlane (ms : MeshBase) (stVtxIdx stIdxIdx : ℕ)
    (setNorm setTex setIdx : Bool) (waxis haxis : Dims) (wdir hdir : ℤ)
    (width height woff hoff zoff : F32) (wsegs hsegs : ℤ) (clr : Gi3d.Color) : MeshBase :=
let wdim : Dims :=
  if (waxis = Dims.X ∧ haxis = Dims.Y) ∨ (waxis = Dims.Y ∧ haxis = Dims.X) then Dims.Z
  else if (waxis = Dims.X ∧ haxis = Dims.Z) ∨ (waxis = Dims.Z ∧ haxis = Dims.X) then Dims.Y
  else if (waxis = Dims.Z ∧ haxis = Dims.Y) ∨ (waxis = Dims.Y ∧ haxis = Dims.Z) then Dims.X
  else Dims.Z
let wsegs := max wsegs 1
let hsegs := max hsegs 1
let norm := if 0 < zoff then Vec3.zero.setDim wdim 1 else Vec3.zero.setDim wdim (-1)
let wsegs1 : ℕ := wsegs.toNat + 1
let hsegs1 : ℕ := hsegs.toNat + 1
let segWidth := width / F32.ofInt wsegs
let segHeight := height / F32.ofInt hsegs
let fwdir : F32 := F32.ofInt wdir
let fhdir : F32 := F32.ofInt hdir
let woff := if wdir < 0 then width + woff else woff
let hoff := if hdir < 0 then height + hoff else hoff
let hasColor := !clr.IsNil
let vtxSz := (ms.PlaneSize wsegs hsegs).1.toNat
let idxSz := (ms.PlaneSize wsegs hsegs).2.toNat
let ms1 := planeExt ms stVtxIdx vtxSz hasColor
let p : PlaneParams :=
  { waxis := waxis, haxis := haxis, wdim := wdim, segWidth := segWidth,
    segHeight := segHeight, fwdir := fwdir, fhdir := fhdir, woff := woff,
    hoff := hoff, zoff := zoff, wsegsF := F32.ofInt wsegs, hsegsF := F32.ofInt hsegs,
    setNorm := setNorm, setTex := setTex, norm := norm, hasColor := hasColor,
    clrv := ColorToVec4f clr }
let fin := planeVtxRun p hsegs1 wsegs1 stVtxIdx ms1
let newIdx :=
  if setIdx then planeNewIdx ms.Idx stVtxIdx stIdxIdx wsegs1 wsegs.toNat hsegs.toNat idxSz
  else ms.Idx
{ ms with Vtx := fin.Vtx, Norm := fin.Norm, Tex := fin.Tex, Color := fin.Color, Idx := newIdx }

/-- MeshBase.AddPlane: convenience wrapper around SetPlane that appends
at the current end of the arrays, requesting norms, tex coords, and
indexes. -/
def MeshBase.AddPlane (ms : MeshBase) (waxis haxis : Dims) (wdir hdir : ℤ)
    (width height woff hoff zoff : F32) (wsegs hsegs : ℤ) (clr : Gi3d.Color) : MeshBase :=
ms.SetPlane (ms.Vtx.length / 3) ms.Idx.length true true true waxis haxis wdir hdir
  width height woff hoff zoff wsegs hsegs clr

/-- A concrete buffer manager, standing for a previously created GPU
binding handle. -/
def mgr0 : BufferMgr :=
{ vecUsage := Usage.staticDraw, streams := [], vecLen := 0, idxLen := 0, idxData := [] }

/-- A one-vertex mesh that already carries per-vertex color (color
count = vertex count = 1). -/
def msW10 : MeshBase :=
{ mkMesh "w10" with Vtx := [1, 2, 3], Norm := [0, 0, 1], Tex := [0, 0], Color := [1, 1, 1, 1] }

/-- The axis not used for width or height (the claims' wording), defined
on distinct axes and defaulting to Z like the source's if-chain. -/
def thirdDim : Dims → Dims → Dims
| Dims.X, Dims.Y => Dims.Z
| Dims.Y, Dims.X => Dims.Z
| Dims.X, Dims.Z => Dims.Y
| Dims.Z, Dims.X => Dims.Y
| Dims.Z, Dims.Y => Dims.X
| Dims.Y, Dims.Z => Dims.X
| _, _ => Dims.Z

/-- The claimed plane normal: the unit vector along the axis not used
for width or height, with component +1 if the orthogonal offset zoff is
strictly positive and -1 otherwise (including zoff = 0). -/
def specNormal (waxis haxis : Dims) (zoff : F32) : Vec3 :=
if 0 < zoff then Vec3.zero.setDim (thirdDim waxis haxis) 1
else Vec3.zero.setDim (thirdDim waxis haxis) (-1)

/-
List-level machinery: setChunk, gridCells, and flatten lemmas used to
characterize SetPlane's loops.
-/

/-- setChunk never changes the array length. -/
theorem setChunk_length {α : Type} (vs : List α) (l : List α) (i : ℕ) :
    (setChunk l i vs).length = l.length := by
  induction vs generalizing l i with
  | nil => rfl
  | cons v vs ih => simp [setChunk, ih]

/-- A single set at or beyond position k leaves the first k elements
unchanged. -/
theorem take_set_of_le {α : Type} (l : List α) (i k : ℕ) (v : α) (h : k ≤ i) :
    (l.set i v).take k = l.take k := by
  rw [List.set_take, List.set_eq_of_length_le (le_trans (l.length_take_le k) h)]

/-- A chunk write at or beyond position k leaves the first k elements
unchanged. -/
theorem setChunk_take {α : Type} (vs l : List α) (i k : ℕ) (h : k ≤ i) :
    (setChunk l i vs).take k = l.take k := by
  induction vs generalizing l i with
  | nil => rfl
  | cons v vs ih =>
    rw [setChunk, ih (l.set i v) (i+1) (Nat.le_succ_of_le h), take_set_of_le l i k v h]

/-- Setting exactly at the seam of an append replaces the head of the
right part. -/
theorem set_append_len {α : Type} (A B : List α) (v b : α) :
    (A ++ b :: B).set A.length v = A ++ v :: B := by
  rw [List.set_append]
  simp

/-- A chunk write starting exactly at the seam of an append overwrites
the corresponding segment of the right part. -/
theorem setChunk_append {α : Type} (vs : List α) (A B : List α) (h : vs.length ≤ B.length) :
    setChunk (A ++ B) A.length vs = A ++ vs ++ B.drop vs.length := by
  induction vs generalizing A B with
  | nil => simp [setChunk]
  | cons v vs ih =>
    cases B with
    | nil => simp at h
    | cons b B =>
      rw [setChunk, set_append_len]
      have h1 : (A ++ [v]).length = A.length + 1 := by simp
      have h2 : A ++ v :: B = (A ++ [v]) ++ B := by simp
      rw [h2, ← h1, ih (A ++ [v]) B (by simpa using h)]
      simp [List.append_assoc]

/-- gridCells h w enumerates exactly h*w cells. -/
theorem gridCells_length (h w : ℕ) : (gridCells h w).length = h * w := by
  induction h with
  | zero => simp [gridCells]
  | succ h ih => simp [gridCells, ih, Nat.succ_mul]

/-- Every enumerated cell is inside the grid. -/
theorem gridCells_mem (h w : ℕ) (c : ℕ × ℕ) (hc : c ∈ gridCells h w) :
    c.1 < h ∧ c.2 < w := by
  induction h with
  | zero => simp [gridCells] at hc
  | succ h ih =>
    simp only [gridCells, List.mem_append, List.mem_map, List.mem_range] at hc
    rcases hc with hc | ⟨ix, hix, rfl⟩
    · have := ih hc
      omega
    · exact ⟨Nat.lt_succ_self h, hix⟩

/-- The cell at list position iy*w + ix is (iy, ix). -/
theorem gridCells_getElem (h w iy ix : ℕ) (hy : iy < h) (hx : ix < w) :
    (gridCells h w)[iy * w + ix]? = some (iy, ix) := by
  induction h with
  | zero => omega
  | succ h ih =>
    rcases Nat.lt_succ_iff_lt_or_eq.mp hy with hy' | rfl
    · rw [gridCells, List.getElem?_append_left]
      · exact ih hy'
      · rw [gridCells_length]
        calc iy * w + ix < iy * w + w := by omega
          _ = (iy + 1) * w := (Nat.succ_mul iy w).symm
          _ ≤ h * w := Nat.mul_le_mul_right w hy'
    · rw [gridCells, List.getElem?_append_right (by rw [gridCells_length]; omega)]
      rw [gridCells_length]
      have e : iy * w + ix - iy * w = ix := by omega
      rw [e, List.getElem?_map, List.getElem?_range hx]
      rfl

/-- Element j of block m of a flatten of equal-length blocks. -/
theorem flatten_getElem {α : Type} (k : ℕ) (L : List (List α)) (hL : ∀ l ∈ L, l.length = k)
    (m j : ℕ) (hj : j < k) :
    ∀ lm, L[m]? = some lm → L.flatten[k * m + j]? = lm[j]? := by
  induction L generalizing m with
  | nil => intro lm hm; simp at hm
  | cons l L ih =>
    intro lm hm
    cases m with
    | zero =>
      simp only [List.getElem?_cons_zero, Option.some_inj] at hm
      rw [List.flatten_cons, Nat.mul_zero, Nat.zero_add, ← hm,
        List.getElem?_append_left (by rw [hL l (List.mem_cons_self l L)]; exact hj)]
    | succ m =>
      rw [List.flatten_cons,
        List.getElem?_append_right (by rw [hL l (List.mem_cons_self l L)]; nlinarith [Nat.mul_le_mul_right k (Nat.succ_le_succ (Nat.zero_le m))]),
        hL l (List.mem_cons_self l L)]
      have e : k * (m + 1) + j - k = k * m + j := by
        have : k * (m + 1) = k * m + k := by ring
        omega
      rw [e]
      exact ih (fun x hx => hL x (List.mem_cons_of_mem l hx)) m lm (by simpa using hm)

/-- The length of a flatten of equal-length blocks. -/
theorem flatten_length_const {α : Type} (k : ℕ) (L : List (List α))
    (hL : ∀ l ∈ L, l.length = k) : L.flatten.length = k * L.length := by
  induction L with
  | nil => simp
  | cons l L ih =>
    rw [List.flatten_cons, List.length_append, hL l (List.mem_cons_self l L),
      ih (fun x hx => hL x (List.mem_cons_of_mem l hx))]
    simp [Nat.mul_succ]
    ring

/-
Characterizations of SetPlane's two loops.
-/

/-- Each cell's index chunk has six entries. -/
theorem planeIdxChunk_length (stV w1 : ℕ) (c : ℕ × ℕ) :
    (planeIdxChunk stV w1 c).length = 6 := rfl

/-- The index loop writes the cells' six-entry chunks contiguously,
starting at the seam of the given append. -/
theorem idxFold_append (stV w1 : ℕ) (cells : List (ℕ × ℕ)) :
    ∀ (A B : List ℕ), 6 * cells.length ≤ B.length →
    cells.foldl (planeIdxStep stV w1) (A ++ B, A.length) =
      (A ++ (cells.map (planeIdxChunk stV w1)).flatten ++ B.drop (6 * cells.length),
       A.length + 6 * cells.length) := by
  induction cells with
  | nil => intro A B _; simp
  | cons c cells ih =>
    intro A B h
    have hlen6 : (6 : ℕ) ≤ B.length := by
      simp only [List.length_cons] at h
      omega
    have hstep : planeIdxStep stV w1 (A ++ B, A.length) c =
        ((A ++ planeIdxChunk stV w1 c) ++ B.drop 6, (A ++ planeIdxChunk stV w1 c).length) := by
      simp only [planeIdxStep]
      rw [setChunk_append _ _ _ (by rw [planeIdxChunk_length]; exact hlen6)]
      simp [planeIdxChunk_length, List.append_assoc]
    rw [List.foldl_cons, hstep,
      ih (A ++ planeIdxChunk stV w1 c) (B.drop 6)
        (by simp only [List.length_drop, List.length_cons] at h ⊢; omega)]
    have e1 : 6 * (c :: cells).length = 6 + 6 * cells.length := by
      simp [List.length_cons]
      ring
    rw [e1]
    simp [List.append_assoc, List.drop_drop, planeIdxChunk_length, Prod.ext_iff]
    omega

/-- The index loop preserves prefixes below the start cursor and the
array length. -/
theorem idxFold_take (stV w1 : ℕ) (cells : List (ℕ × ℕ)) :
    ∀ (l : List ℕ) (i k : ℕ), k ≤ i →
      ((cells.foldl (planeIdxStep stV w1) (l, i)).1).take k = l.take k ∧
      ((cells.foldl (planeIdxStep stV w1) (l, i)).1).length = l.length := by
  induction cells with
  | nil => intro l i k _; exact ⟨rfl, rfl⟩
  | cons c cells ih =>
    intro l i k hk
    rw [List.foldl_cons]
    obtain ⟨h1, h2⟩ := ih (setChunk l i (planeIdxChunk stV w1 c)) (i + 6) k (by omega)
    exact ⟨h1.trans (setChunk_take _ _ _ _ hk), h2.trans (setChunk_length _ _ _)⟩

/-- One vertex-loop step preserves all four array lengths. -/
theorem planeVtxStep_lengths (p : PlaneParams) (s : PlaneLoopState) (c : ℕ × ℕ) :
    (planeVtxStep p s c).Vtx.length = s.Vtx.length ∧
    (planeVtxStep p s c).Norm.length = s.Norm.length ∧
    (planeVtxStep p s c).Tex.length = s.Tex.length ∧
    (planeVtxStep p s c).Color.length = s.Color.length := by
  simp only [planeVtxStep]
  refine ⟨?_, ?_, ?_, ?_⟩ <;> dsimp only <;>
    first
    | (split <;> simp [Vec3.toArray, Vec2.toArray, Vec4.toArray, setChunk_length])
    | simp [Vec3.toArray, setChunk_length]

/-- One vertex-loop step: the vertex cursor advances by 3 and the other
cursors never move backwards. -/
theorem planeVtxStep_cursors (p : PlaneParams) (s : PlaneLoopState) (c : ℕ × ℕ) :
    (planeVtxStep p s c).vidx = s.vidx + 3 ∧
    s.tidx ≤ (planeVtxStep p s c).tidx ∧
    s.cidx ≤ (planeVtxStep p s c).cidx := by
  refine ⟨rfl, ?_, ?_⟩ <;>
    · simp only [planeVtxStep]
      split <;> omega

/-- One vertex-loop step leaves everything below the cursors unchanged. -/
theorem planeVtxStep_take (p : PlaneParams) (s : PlaneLoopState) (c : ℕ × ℕ)
    (kv kn kt kc : ℕ) (hv : kv ≤ s.vidx) (hn : kn ≤ s.vidx)
    (ht : kt ≤ s.tidx) (hc : kc ≤ s.cidx) :
    (planeVtxStep p s c).Vtx.take kv = s.Vtx.take kv ∧
    (planeVtxStep p s c).Norm.take kn = s.Norm.take kn ∧
    (planeVtxStep p s c).Tex.take kt = s.Tex.take kt ∧
    (planeVtxStep p s c).Color.take kc = s.Color.take kc := by
  simp only [planeVtxStep]
  refine ⟨?_, ?_, ?_, ?_⟩ <;> dsimp only
  · rw [Vec3.toArray, setChunk_take _ _ _ _ hv]
  · split
    · rw [Vec3.toArray, setChunk_take _ _ _ _ hn]
    · rfl
  · split
    · rw [Vec2.toArray, setChunk_take _ _ _ _ ht]
    · rfl
  · split
    · rw [Vec4.toArray, setChunk_take _ _ _ _ hc]
    · rfl

/-- The vertex loop preserves all four array lengths. -/
theorem vtxFold_lengths (p : PlaneParams) (cells : List (ℕ × ℕ)) :
    ∀ s : PlaneLoopState,
      (cells.foldl (planeVtxStep p) s).Vtx.length = s.Vtx.length ∧
      (cells.foldl (planeVtxStep p) s).Norm.length = s.Norm.length ∧
      (cells.foldl (planeVtxStep p) s).Tex.length = s.Tex.length ∧
      (cells.foldl (planeVtxStep p) s).Color.length = s.Color.length := by
  induction cells with
  | nil => intro s; exact ⟨rfl, rfl, rfl, rfl⟩
  | cons c cells ih =>
    intro s
    rw [List.foldl_cons]
    obtain ⟨h1, h2, h3, h4⟩ := ih (planeVtxStep p s c)
    obtain ⟨g1, g2, g3, g4⟩ := planeVtxStep_lengths p s c
    exact ⟨h1.trans g1, h2.trans g2, h3.trans g3, h4.trans g4⟩

/-- The vertex loop leaves everything below the start cursors unchanged. -/
theorem vtxFold_take (p : PlaneParams) (cells : List (ℕ × ℕ)) :
    ∀ (s : PlaneLoopState) (kv kn kt kc : ℕ),
      kv ≤ s.vidx → kn ≤ s.vidx → kt ≤ s.tidx → kc ≤ s.cidx →
      (cells.foldl (planeVtxStep p) s).Vtx.take kv = s.Vtx.take kv ∧
      (cells.foldl (planeVtxStep p) s).Norm.take kn = s.Norm.take kn ∧
      (cells.foldl (planeVtxStep p) s).Tex.take kt = s.Tex.take kt ∧
      (cells.foldl (planeVtxStep p) s).Color.take kc = s.Color.take kc := by
  induction cells with
  | nil => intro s kv kn kt kc _ _ _ _; exact ⟨rfl, rfl, rfl, rfl⟩
  | cons c cells ih =>
    intro s kv kn kt kc hv hn ht hc
    rw [List.foldl_cons]
    obtain ⟨e1, e2, e3⟩ := planeVtxStep_cursors p s c
    obtain ⟨h1, h2, h3, h4⟩ := ih (planeVtxStep p s c) kv kn kt kc (by omega) (by omega)
      (le_trans ht e2) (le_trans hc e3)
    obtain ⟨g1, g2, g3, g4⟩ := planeVtxStep_take p s c kv kn kt kc hv hn ht hc
    exact ⟨h1.trans g1, h2.trans g2, h3.trans g3, h4.trans g4⟩

/-- With no color supplied, the vertex loop never touches the Color
array. -/
theorem vtxFold_color_const (p : PlaneParams) (hcol : p.hasColor = false)
    (cells : List (ℕ × ℕ)) :
    ∀ s : PlaneLoopState, (cells.foldl (planeVtxStep p) s).Color = s.Color := by
  induction cells with
  | nil => intro s; rfl
  | cons c cells ih =>
    intro s
    rw [List.foldl_cons, ih (planeVtxStep p s c)]
    simp [planeVtxStep, hcol]

/-- With setNorm requested, the vertex loop writes the constant normal
chunk for every cell, contiguously from the seam of the append. -/
theorem vtxFold_norm (p : PlaneParams) (hsetN : p.setNorm = true) (cells : List (ℕ × ℕ)) :
    ∀ (s : PlaneLoopState) (A B : List F32), s.Norm = A ++ B → s.vidx = A.length →
      3 * cells.length ≤ B.length →
      (cells.foldl (planeVtxStep p) s).Norm =
        A ++ (List.replicate cells.length [p.norm.x, p.norm.y, p.norm.z]).flatten ++
          B.drop (3 * cells.length) := by
  induction cells with
  | nil => intro s A B hN _ _; simp [hN]
  | cons c cells ih =>
    intro s A B hN hv h
    have h3 : (3 : ℕ) ≤ B.length := by
      simp only [List.length_cons] at h
      omega
    have hstep : (planeVtxStep p s c).Norm =
        (A ++ [p.norm.x, p.norm.y, p.norm.z]) ++ B.drop 3 := by
      simp only [planeVtxStep]
      rw [if_pos hsetN, Vec3.toArray, hN, hv, setChunk_append _ _ _ (by simpa using h3)]
      simp [List.append_assoc]
    have hvidx : (planeVtxStep p s c).vidx = (A ++ [p.norm.x, p.norm.y, p.norm.z]).length := by
      rw [(planeVtxStep_cursors p s c).1, hv]
      simp
    rw [List.foldl_cons,
      ih (planeVtxStep p s c) (A ++ [p.norm.x, p.norm.y, p.norm.z]) (B.drop 3) hstep hvidx
        (by simp only [List.length_drop, List.length_cons] at h ⊢; omega)]
    have e : 3 * (c :: cells).length = 3 + 3 * cells.length := by
      simp [List.length_cons]
      ring
    rw [e]
    simp [List.append_assoc, List.drop_drop, List.replicate_succ]

/-
Arithmetic and extension lemmas about PlaneSize, planeExt, and the
SetPlane wiring.
-/

/-- PlaneSize's components, as natural numbers of the clamped segment
counts. -/
theorem planeSize_toNat (ms : MeshBase) (wsegs hsegs : ℤ) :
    (ms.PlaneSize wsegs hsegs).1.toNat =
      ((max wsegs 1).toNat + 1) * ((max hsegs 1).toNat + 1) ∧
    (ms.PlaneSize wsegs hsegs).2.toNat =
      (max wsegs 1).toNat * (max hsegs 1).toNat * 6 := by
  have ha : (0:ℤ) ≤ max wsegs 1 := le_trans zero_le_one (le_max_right _ _)
  have hb : (0:ℤ) ≤ max hsegs 1 := le_trans zero_le_one (le_max_right _ _)
  obtain ⟨A, hA⟩ := Int.eq_ofNat_of_zero_le ha
  obtain ⟨B, hB⟩ := Int.eq_ofNat_of_zero_le hb
  unfold MeshBase.PlaneSize
  constructor
  · dsimp only
    rw [hA, hB]
    have e : ((A:ℤ) + 1) * ((B:ℤ) + 1) = (((A + 1) * (B + 1) : ℕ) : ℤ) := by
      push_cast
      ring
    rw [e, Int.toNat_natCast]
    simp only [Int.toNat_natCast]
  · dsimp only
    rw [hA, hB]
    have e : (A:ℤ) * (B:ℤ) * 6 = ((A * B * 6 : ℕ) : ℤ) := by
      push_cast
      ring
    rw [e, Int.toNat_natCast]
    simp only [Int.toNat_natCast]

/-- The clamped segment counts are at least 1. -/
theorem segClamp_pos (s : ℤ) : 1 ≤ (max s 1).toNat := by
  have : (1:ℤ) ≤ max s 1 := le_max_right _ _
  omega

/-- planeExt in the append-at-end case (start index = current vertex
count, vertex array length a multiple of 3): every array grows by
exactly the plane's worth of elements. -/
theorem planeExt_append (ms : MeshBase) (vtxSz : ℕ) (hasC : Bool)
    (hpos : 0 < vtxSz) :
    planeExt ms (ms.Vtx.length / 3) vtxSz hasC =
      { ms with Vtx := ms.Vtx ++ List.replicate (vtxSz * 3) 0,
                Norm := ms.Norm ++ List.replicate (vtxSz * 3) 0,
                Tex := ms.Tex ++ List.replicate (vtxSz * 2) 0,
                Color := if hasC then ms.Color ++ List.replicate (vtxSz * 4) 0
                  else ms.Color } := by
  simp only [planeExt]
  rw [if_pos (by omega)]
  have hd : ms.Vtx.length / 3 + vtxSz - ms.Vtx.length / 3 = vtxSz := by omega
  rw [hd]
  simp [extendF]

/-- planeExt never touches Color when no color is supplied. -/
theorem planeExt_color_false (ms : MeshBase) (st v : ℕ) :
    (planeExt ms st v false).Color = ms.Color := by
  simp only [planeExt]
  split <;> rfl

/-- When Norm and Vtx are aligned, the extended Norm array always covers
the plane's normal writes. -/
theorem planeExt_norm_cover (ms : MeshBase) (st vtxSz : ℕ) (hasC : Bool)
    (hlen : ms.Norm.length = ms.Vtx.length) (h3 : 3 ∣ ms.Vtx.length) :
    3 * (st + vtxSz) ≤ (planeExt ms st vtxSz hasC).Norm.length := by
  simp only [planeExt]
  split <;> simp [extendF, hlen] <;> omega

/-- Every grid corner id lies below the plane's vertex count. -/
theorem corner_bound (W H x y : ℕ) (hx : x ≤ W) (hy : y ≤ H) :
    x + (W + 1) * y < (W + 1) * (H + 1) := by
  have h1 : x + (W + 1) * y ≤ W + (W + 1) * H :=
    Nat.add_le_add hx (Nat.mul_le_mul_left _ hy)
  have h2 : (W + 1) * (H + 1) = (W + 1) * H + W + 1 := by ring
  omega

/-- Under distinct width/height axes, the source's normal-axis if-chain
computes exactly the remaining axis. -/
theorem wdim_eq_thirdDim (waxis haxis : Dims) (h : waxis ≠ haxis) :
    (if (waxis = Dims.X ∧ haxis = Dims.Y) ∨ (waxis = Dims.Y ∧ haxis = Dims.X) then Dims.Z
     else if (waxis = Dims.X ∧ haxis = Dims.Z) ∨ (waxis = Dims.Z ∧ haxis = Dims.X) then Dims.Y
     else if (waxis = Dims.Z ∧ haxis = Dims.Y) ∨ (waxis = Dims.Y ∧ haxis = Dims.Z) then Dims.X
     else Dims.Z) = thirdDim waxis haxis := by
  cases waxis <;> cases haxis <;> first | (exact absurd rfl h) | rfl

/-- The index loop started at cursor 0 on a fresh array produces the
cells' chunks followed by the leftover tail. -/
theorem idxFold_zero (stV w1 : ℕ) (cells : List (ℕ × ℕ)) (B : List ℕ)
    (h : 6 * cells.length ≤ B.length) :
    cells.foldl (planeIdxStep stV w1) (B, 0) =
      ((cells.map (planeIdxChunk stV w1)).flatten ++ B.drop (6 * cells.length),
       6 * cells.length) := by
  have := idxFold_append stV w1 cells [] B (by simpa using h)
  simpa using this

/-- On an empty mesh with zero start indices, SetPlane's index array is
exactly the flatten of the per-cell chunks, in grid order. -/
theorem setPlane_idx_char (ms : MeshBase) (hi : ms.Idx = [])
    (setN setT : Bool) (waxis haxis : Dims) (wdir hdir : ℤ)
    (width height woff hoff zoff : F32) (wsegs hsegs : ℤ) (clr : Gi3d.Color) :
    (ms.SetPlane 0 0 setN setT true waxis haxis wdir hdir width height woff hoff zoff
        wsegs hsegs clr).Idx =
      ((gridCells (max hsegs 1).toNat (max wsegs 1).toNat).map
        (planeIdxChunk 0 ((max wsegs 1).toNat + 1))).flatten := by
  have hW := segClamp_pos wsegs
  have hH := segClamp_pos hsegs
  have hid1 : max (max wsegs 1) 1 = max wsegs 1 := by rw [max_assoc, max_self]
  have hid2 : max (max hsegs 1) 1 = max hsegs 1 := by rw [max_assoc, max_self]
  have hidx : (ms.PlaneSize (max wsegs 1) (max hsegs 1)).2.toNat =
      (max wsegs 1).toNat * (max hsegs 1).toNat * 6 := by
    have := (planeSize_toNat ms (max wsegs 1) (max hsegs 1)).2
    rwa [hid1, hid2] at this
  simp only [MeshBase.SetPlane, if_true]
  rw [hi]
  simp only [planeNewIdx]
  rw [hidx]
  have hpos : 0 < (max wsegs 1).toNat * (max hsegs 1).toNat * 6 := by
    have := Nat.mul_le_mul hW hH
    omega
  rw [if_pos (by simp [hpos])]
  simp only [extendU, List.nil_append, List.length_nil, Nat.zero_add, Nat.sub_zero]
  have hlen : 6 * (gridCells (max hsegs 1).toNat (max wsegs 1).toNat).length =
      (max wsegs 1).toNat * (max hsegs 1).toNat * 6 := by
    rw [gridCells_length]
    ring
  rw [idxFold_zero _ _ _ _ (by simp [hlen])]
  simp [List.drop_replicate, hlen]

/-- PlaneSize applied to already-clamped counts (as SetPlane does):
clamping is idempotent. -/
theorem planeSize_clamped (ms : MeshBase) (wsegs hsegs : ℤ) :
    (ms.PlaneSize (max wsegs 1) (max hsegs 1)).1.toNat =
      ((max wsegs 1).toNat + 1) * ((max hsegs 1).toNat + 1) ∧
    (ms.PlaneSize (max wsegs 1) (max hsegs 1)).2.toNat =
      (max wsegs 1).toNat * (max hsegs 1).toNat * 6 := by
  have h1 : max (max wsegs 1) 1 = max wsegs 1 := by rw [max_assoc, max_self]
  have h2 : max (max hsegs 1) 1 = max hsegs 1 := by rw [max_assoc, max_self]
  have h := planeSize_toNat ms (max wsegs 1) (max hsegs 1)
  rwa [h1, h2] at h

/-- The vertex run preserves all four array lengths. -/
theorem planeVtxRun_lengths (p : PlaneParams) (h1 w1 st : ℕ) (ms1 : MeshBase) :
    (planeVtxRun p h1 w1 st ms1).Vtx.length = ms1.Vtx.length ∧
    (planeVtxRun p h1 w1 st ms1).Norm.length = ms1.Norm.length ∧
    (planeVtxRun p h1 w1 st ms1).Tex.length = ms1.Tex.length ∧
    (planeVtxRun p h1 w1 st ms1).Color.length = ms1.Color.length := by
  simp only [planeVtxRun]
  exact vtxFold_lengths p (gridCells h1 w1) _

/-- The vertex run leaves data below the start cursors unchanged. -/
theorem planeVtxRun_take (p : PlaneParams) (h1 w1 st : ℕ) (ms1 : MeshBase)
    (kv kn kt kc : ℕ) (hv : kv ≤ st * 3) (hn : kn ≤ st * 3)
    (ht : kt ≤ st * 2) (hc : kc ≤ st * 4) :
    (planeVtxRun p h1 w1 st ms1).Vtx.take kv = ms1.Vtx.take kv ∧
    (planeVtxRun p h1 w1 st ms1).Norm.take kn = ms1.Norm.take kn ∧
    (planeVtxRun p h1 w1 st ms1).Tex.take kt = ms1.Tex.take kt ∧
    (planeVtxRun p h1 w1 st ms1).Color.take kc = ms1.Color.take kc := by
  simp only [planeVtxRun]
  exact vtxFold_take p (gridCells h1 w1) _ kv kn kt kc hv hn ht hc

/-- With no color supplied, the vertex run never touches Color. -/
theorem planeVtxRun_color (p : PlaneParams) (hcol : p.hasColor = false)
    (h1 w1 st : ℕ) (ms1 : MeshBase) :
    (planeVtxRun p h1 w1 st ms1).Color = ms1.Color := by
  simp only [planeVtxRun]
  exact vtxFold_color_const p hcol (gridCells h1 w1) _

/-- With setNorm requested and the Norm array covering the plane, the
vertex run writes the constant normal chunk for all h1*w1 generated
vertices. -/
theorem planeVtxRun_norm (p : PlaneParams) (hsetN : p.setNorm = true)
    (h1 w1 st : ℕ) (ms1 : MeshBase)
    (hcover : 3 * st + 3 * (h1 * w1) ≤ ms1.Norm.length) :
    (planeVtxRun p h1 w1 st ms1).Norm =
      ms1.Norm.take (3 * st) ++
        (List.replicate (h1 * w1) [p.norm.x, p.norm.y, p.norm.z]).flatten ++
        ms1.Norm.drop (3 * st + 3 * (h1 * w1)) := by
  simp only [planeVtxRun]
  have hA : (ms1.Norm.take (3 * st)).length = 3 * st := by
    rw [List.length_take]
    omega
  have h := vtxFold_norm p hsetN (gridCells h1 w1)
    { Vtx := ms1.Vtx, Norm := ms1.Norm, Tex := ms1.Tex, Color := ms1.Color,
      vtx := Vec3.zero, tex := Vec2.zero, vidx := st * 3,
      tidx := st * 2, cidx := st * 4 }
    (ms1.Norm.take (3 * st)) (ms1.Norm.drop (3 * st))
    (by simp) (by simp [hA]; omega)
    (by rw [gridCells_length, List.length_drop]; omega)
  rw [h, gridCells_length]
  rw [List.drop_drop]

/-- The six entries of a cell's index chunk, by position: the triangles
(a,b,d) and (b,c,d). -/
theorem planeIdxChunk_elems (stV w1 : ℕ) (c : ℕ × ℕ) :
    (planeIdxChunk stV w1 c)[0]? = some (u32 (c.2 + w1 * c.1 + stV)) ∧
    (planeIdxChunk stV w1 c)[1]? = some (u32 (c.2 + w1 * (c.1 + 1) + stV)) ∧
    (planeIdxChunk stV w1 c)[2]? = some (u32 ((c.2 + 1) + w1 * c.1 + stV)) ∧
    (planeIdxChunk stV w1 c)[3]? = some (u32 (c.2 + w1 * (c.1 + 1) + stV)) ∧
    (planeIdxChunk stV w1 c)[4]? = some (u32 ((c.2 + 1) + w1 * (c.1 + 1) + stV)) ∧
    (planeIdxChunk stV w1 c)[5]? = some (u32 ((c.2 + 1) + w1 * c.1 + stV)) :=
  ⟨rfl, rfl, rfl, rfl, rfl, rfl⟩

/-
Claim theorems for Validate, PlaneSize, MakeVectors, Reset, and the
concrete SetPlane scenario.
-/

/-- C1 (counterexample): on the mesh with zero vertices all three count
conditions of the claimed biconditional hold (norm count = tex count =
vertex count = 0 and color count = 0), yet Validate returns an error, so
the claimed "if and only if" fails at the zero-vertex mesh. -/
theorem validate_iff_zero_counterexample :
    (mkMesh "m").Norm.length / 3 = (mkMesh "m").Vtx.length / 3 ∧
    (mkMesh "m").Tex.length / 2 = (mkMesh "m").Vtx.length / 3 ∧
    (mkMesh "m").Color.length / 4 = 0 ∧
    (mkMesh "m").Validate ≠ none := by
  refine ⟨rfl, rfl, rfl, ?_⟩
  decide

/-- C1 (amended): Validate succeeds iff the vertex count (as 3-float
vectors) is nonzero, the normal and texcoord counts equal the vertex
count, and the color count is 0 or equals the vertex count. -/
theorem validate_iff (ms : MeshBase) :
    ms.Validate = none ↔
      (ms.Vtx.length / 3 ≠ 0 ∧
       ms.Norm.length / 3 = ms.Vtx.length / 3 ∧
       ms.Tex.length / 2 = ms.Vtx.length / 3 ∧
       (ms.Color.length / 4 = 0 ∨ ms.Color.length / 4 = ms.Vtx.length / 3)) := by
  simp only [MeshBase.Validate]
  split_ifs with h1 h2 h3 h4 h5 <;> simp_all

/-- C2: PlaneSize returns ((wsegs+1)*(hsegs+1), wsegs*hsegs*6) with each
segment count clamped to a minimum of 1 before the formula is applied,
for all non-negative segment counts. -/
theorem planeSize_eq (ms : MeshBase) (wsegs hsegs : ℤ)
    (_hw : 0 ≤ wsegs) (_hh : 0 ≤ hsegs) :
    ms.PlaneSize wsegs hsegs =
      ((max wsegs 1 + 1) * (max hsegs 1 + 1), max wsegs 1 * max hsegs 1 * 6) := rfl

/-- C2 (witness): PlaneSize at (0, 5) — both clamps in play on the width
side — evaluates to ((1+1)*(6), 1*5*6) = (12, 30). -/
theorem planeSize_eq_witness :
    (0:ℤ) ≤ 0 ∧ (0:ℤ) ≤ 5 ∧ (mkMesh "m").PlaneSize 0 5 = (12, 30) :=
  ⟨by decide, by decide,
   (planeSize_eq (mkMesh "m") 0 5 (by decide) (by decide)).trans (by decide)⟩

/-- C3 (counterexample): in the claimed scenario the vertex array is NOT
stored in the claimed order (0,0,1),(0,2,1),(2,0,1),(2,2,1) — the width
axis is the inner loop, so vertex 1 is (2,0,1). -/
theorem setPlane_scenario_counterexample :
    ((mkMesh "p").SetPlane 0 0 true true true Dims.X Dims.Y 1 1 2 2 0 0 1 1 1 nilColor).Vtx ≠
      [0, 0, 1, 0, 2, 1, 2, 0, 1, 2, 2, 1] := by decide

/-- C3 (amended): SetPlane on an empty mesh with waxis=X, haxis=Y,
wdir=hdir=1, width=height=2, woff=hoff=0, zoff=1, wsegs=hsegs=1, nil
color produces exactly 4 vertices at, in storage order,
(0,0,1),(2,0,1),(0,2,1),(2,2,1) (width-inner row-major order), exactly 6
indices forming the two triangles (0,2,1) and (2,3,1), and the same
normal (0,0,1) at every vertex. -/
theorem setPlane_scenario :
    ((mkMesh "p").SetPlane 0 0 true true true Dims.X Dims.Y 1 1 2 2 0 0 1 1 1 nilColor).Vtx =
      [0, 0, 1, 2, 0, 1, 0, 2, 1, 2, 2, 1] ∧
    ((mkMesh "p").SetPlane 0 0 true true true Dims.X Dims.Y 1 1 2 2 0 0 1 1 1 nilColor).Vtx.length =
      3 * 4 ∧
    ((mkMesh "p").SetPlane 0 0 true true true Dims.X Dims.Y 1 1 2 2 0 0 1 1 1 nilColor).Idx =
      [0, 2, 1, 2, 3, 1] ∧
    ((mkMesh "p").SetPlane 0 0 true true true Dims.X Dims.Y 1 1 2 2 0 0 1 1 1 nilColor).Norm =
      [0, 0, 1, 0, 0, 1, 0, 0, 1, 0, 0, 1] := by
  refine ⟨by decide, by decide, by decide, by decide⟩

/-- C7: whenever Validate returns an error, MakeVectors returns that same
error, leaves the mesh (in particular its Buff field) unchanged, and
performs no GPU buffer operation at all. -/
theorem makeVectors_validate_gate (ms : MeshBase) (sc : Scene) (e : ValidateErr)
    (h : ms.Validate = some e) :
    ms.MakeVectors sc = (some e, ms, []) ∧ (ms.MakeVectors sc).2.1.Buff = ms.Buff := by
  unfold MeshBase.MakeVectors
  rw [h]
  exact ⟨rfl, rfl⟩

/-- C7 (witness): on an (invalid) empty mesh, MakeVectors propagates the
no-verticies error untouched, with no buffer operations. -/
theorem makeVectors_validate_gate_witness :
    (mkMesh "m").Validate = some (ValidateErr.noVerts GoFmtVal.methodVal) ∧
    (mkMesh "m").MakeVectors ⟨0, 1, 2, 3⟩ =
      (some (ValidateErr.noVerts GoFmtVal.methodVal), mkMesh "m", []) :=
  ⟨by decide,
   (makeVectors_validate_gate (mkMesh "m") ⟨0, 1, 2, 3⟩
     (ValidateErr.noVerts GoFmtVal.methodVal) (by decide)).1⟩

/-- C8 (code bug): the Validate error message does not contain the mesh
name.  The source passes the method value `ms.Name` (never calling it)
to fmt.Errorf's %v verb, which prints the function's address, a string
independent of the mesh — so two empty meshes named "foo" and "bar"
produce the identical message, whatever address string %v renders. -/
theorem validate_errmsg_ignores_name (addr : String) :
    (mkMesh "foo").Validate.map (ValidateErr.msg addr) =
      (mkMesh "bar").Validate.map (ValidateErr.msg addr) ∧
    (mkMesh "foo").Validate = some (ValidateErr.noVerts GoFmtVal.methodVal) :=
  ⟨rfl, rfl⟩

/-- C9 (counterexample): Reset does NOT release the GPU binding handle —
after Reset the Buff field still holds the previously created buffer
manager. -/
theorem reset_keeps_buff_counterexample :
    ({ mkMesh "m" with Buff := some mgr0, Vtx := [1, 2, 3] } : MeshBase).Reset.Buff =
      some mgr0 := rfl

/-- C9 (amended): Reset clears all vertex and index data arrays to empty
but leaves the Buff field unchanged; the GPU binding is not released by
Reset. -/
theorem reset_spec (ms : MeshBase) :
    ms.Reset.Vtx = [] ∧ ms.Reset.Norm = [] ∧ ms.Reset.Tex = [] ∧
    ms.Reset.Idx = [] ∧ ms.Reset.Color = [] ∧ ms.Reset.Buff = ms.Buff :=
  ⟨rfl, rfl, rfl, rfl, rfl, rfl⟩

/-- Folding the normal's if-expression into specNormal. -/
theorem specNormal_def (waxis haxis : Dims) (zoff : F32) :
    (if 0 < zoff then Vec3.zero.setDim (thirdDim waxis haxis) 1
     else Vec3.zero.setDim (thirdDim waxis haxis) (-1)) = specNormal waxis haxis zoff := rfl

/-- C4 (amended): SetPlane with setIdx=true on an empty mesh (start
indices 0) and clamped counts W, H emits, provided the plane's vertex
ids fit in 32 bits ((W+1)*(H+1) ≤ 2^32), exactly the triangles (a,b,d)
and (b,c,d) per grid cell with a=ix+(W+1)*iy, b=ix+(W+1)*(iy+1),
c=(ix+1)+(W+1)*(iy+1), d=(ix+1)+(W+1)*iy; every emitted index value is
below the generated vertex count, and the index array length is W*H*6,
a multiple of 6. -/
theorem setPlane_idx_spec (ms : MeshBase) (hv : ms.Vtx = []) (hi : ms.Idx = [])
    (setN setT : Bool) (waxis haxis : Dims) (wdir hdir : ℤ)
    (width height woff hoff zoff : F32) (wsegs hsegs : ℤ) (clr : Gi3d.Color)
    (W H : ℕ) (hW : W = (max wsegs 1).toNat) (hH : H = (max hsegs 1).toNat)
    (h32 : (W + 1) * (H + 1) ≤ 2 ^ 32) (r : MeshBase)
    (hr : r = ms.SetPlane 0 0 setN setT true waxis haxis wdir hdir width height
      woff hoff zoff wsegs hsegs clr) :
    r.Idx.length = W * H * 6 ∧
    (∀ v ∈ r.Idx, v < r.Vtx.length / 3) ∧
    ∀ iy ix, iy < H → ix < W →
      r.Idx[6 * (iy * W + ix)]? = some (ix + (W + 1) * iy) ∧
      r.Idx[6 * (iy * W + ix) + 1]? = some (ix + (W + 1) * (iy + 1)) ∧
      r.Idx[6 * (iy * W + ix) + 2]? = some ((ix + 1) + (W + 1) * iy) ∧
      r.Idx[6 * (iy * W + ix) + 3]? = some (ix + (W + 1) * (iy + 1)) ∧
      r.Idx[6 * (iy * W + ix) + 4]? = some ((ix + 1) + (W + 1) * (iy + 1)) ∧
      r.Idx[6 * (iy * W + ix) + 5]? = some ((ix + 1) + (W + 1) * iy) := by
  subst hW hH hr
  set W := (max wsegs 1).toNat with hW
  set H := (max hsegs 1).toNat with hH
  have hchar := setPlane_idx_char ms hi setN setT waxis haxis wdir hdir width height
    woff hoff zoff wsegs hsegs clr
  rw [← hW, ← hH] at hchar
  have hL6 : ∀ l ∈ (gridCells H W).map (planeIdxChunk 0 (W + 1)), l.length = 6 := by
    intro l hl
    obtain ⟨c, _, rfl⟩ := List.mem_map.mp hl
    rfl
  have hvtx : (ms.SetPlane 0 0 setN setT true waxis haxis wdir hdir width height
      woff hoff zoff wsegs hsegs clr).Vtx.length = ((W + 1) * (H + 1)) * 3 := by
    simp only [MeshBase.SetPlane]
    rw [(planeVtxRun_lengths _ _ _ _ _).1]
    have h0 : ms.Vtx.length / 3 = 0 := by rw [hv]; rfl
    have hpos : 0 < (W + 1) * (H + 1) := by positivity
    have hext := planeExt_append ms ((W + 1) * (H + 1)) (!clr.IsNil) hpos
    rw [h0] at hext
    rw [(planeSize_clamped ms wsegs hsegs).1, ← hW, ← hH, hext]
    simp [hv]
  have hu : ∀ x y : ℕ, x ≤ W → y ≤ H → u32 (x + (W + 1) * y + 0) = x + (W + 1) * y := by
    intro x y hx hy
    have h1 := corner_bound W H x y hx hy
    have h2 : x + (W + 1) * y + 0 < 2 ^ 32 := by omega
    exact Nat.mod_eq_of_lt h2
  have hub : ∀ x y : ℕ, x ≤ W → y ≤ H → u32 (x + (W + 1) * y + 0) < (W + 1) * (H + 1) := by
    intro x y hx hy
    have h1 := corner_bound W H x y hx hy
    have h2 : u32 (x + (W + 1) * y + 0) ≤ x + (W + 1) * y + 0 := Nat.mod_le _ _
    omega
  refine ⟨?_, ?_, ?_⟩
  · rw [hchar, flatten_length_const 6 _ hL6, List.length_map, gridCells_length]
    ring
  · intro v hvm
    rw [hchar] at hvm
    rw [hvtx]
    have hdiv : ((W + 1) * (H + 1)) * 3 / 3 = (W + 1) * (H + 1) := by omega
    rw [hdiv]
    obtain ⟨l, hl, hvl⟩ := List.mem_flatten.mp hvm
    obtain ⟨c, hc, rfl⟩ := List.mem_map.mp hl
    obtain ⟨hcy, hcx⟩ := gridCells_mem _ _ _ hc
    simp only [planeIdxChunk, List.mem_cons, List.not_mem_nil, or_false] at hvl
    rcases hvl with rfl | rfl | rfl | rfl | rfl | rfl
    · exact hub c.2 c.1 (by omega) (by omega)
    · exact hub c.2 (c.1 + 1) (by omega) (by omega)
    · exact hub (c.2 + 1) c.1 (by omega) (by omega)
    · exact hub c.2 (c.1 + 1) (by omega) (by omega)
    · exact hub (c.2 + 1) (c.1 + 1) (by omega) (by omega)
    · exact hub (c.2 + 1) c.1 (by omega) (by omega)
  · intro iy ix hy hx
    have hm : ((gridCells H W).map (planeIdxChunk 0 (W + 1)))[iy * W + ix]? =
        some (planeIdxChunk 0 (W + 1) (iy, ix)) := by
      rw [List.getElem?_map, gridCells_getElem H W iy ix hy hx]
      rfl
    have he := planeIdxChunk_elems 0 (W + 1) (iy, ix)
    refine ⟨?_, ?_, ?_, ?_, ?_, ?_⟩
    · have h := flatten_getElem 6 _ hL6 (iy * W + ix) 0 (by omega) _ hm
      rw [hchar, ← Nat.add_zero (6 * (iy * W + ix)), h, he.1]
      dsimp only
      rw [hu ix iy (by omega) (by omega)]
    · have h := flatten_getElem 6 _ hL6 (iy * W + ix) 1 (by omega) _ hm
      rw [hchar, h, he.2.1]
      dsimp only
      rw [hu ix (iy + 1) (by omega) (by omega)]
    · have h := flatten_getElem 6 _ hL6 (iy * W + ix) 2 (by omega) _ hm
      rw [hchar, h, he.2.2.1]
      dsimp only
      rw [hu (ix + 1) iy (by omega) (by omega)]
    · have h := flatten_getElem 6 _ hL6 (iy * W + ix) 3 (by omega) _ hm
      rw [hchar, h, he.2.2.2.1]
      dsimp only
      rw [hu ix (iy + 1) (by omega) (by omega)]
    · have h := flatten_getElem 6 _ hL6 (iy * W + ix) 4 (by omega) _ hm
      rw [hchar, h, he.2.2.2.2.1]
      dsimp only
      rw [hu (ix + 1) (iy + 1) (by omega) (by omega)]
    · have h := flatten_getElem 6 _ hL6 (iy * W + ix) 5 (by omega) _ hm
      rw [hchar, h, he.2.2.2.2.2]
      dsimp only
      rw [hu (ix + 1) iy (by omega) (by omega)]

/-- C4 (witness): a 2x1-segment plane on an empty mesh, checked at cell
(ix,iy) = (1,0) among others. -/
theorem setPlane_idx_spec_witness :
    ((mkMesh "w4").SetPlane 0 0 true true true Dims.X Dims.Y 1 1 2 1 0 0 1 2 1
        nilColor).Idx.length = 2 * 1 * 6 ∧
    (∀ v ∈ ((mkMesh "w4").SetPlane 0 0 true true true Dims.X Dims.Y 1 1 2 1 0 0 1 2 1
        nilColor).Idx,
      v < ((mkMesh "w4").SetPlane 0 0 true true true Dims.X Dims.Y 1 1 2 1 0 0 1 2 1
        nilColor).Vtx.length / 3) ∧
    ∀ iy ix, iy < 1 → ix < 2 →
      ((mkMesh "w4").SetPlane 0 0 true true true Dims.X Dims.Y 1 1 2 1 0 0 1 2 1
        nilColor).Idx[6 * (iy * 2 + ix)]? = some (ix + (2 + 1) * iy) ∧
      ((mkMesh "w4").SetPlane 0 0 true true true Dims.X Dims.Y 1 1 2 1 0 0 1 2 1
        nilColor).Idx[6 * (iy * 2 + ix) + 1]? = some (ix + (2 + 1) * (iy + 1)) ∧
      ((mkMesh "w4").SetPlane 0 0 true true true Dims.X Dims.Y 1 1 2 1 0 0 1 2 1
        nilColor).Idx[6 * (iy * 2 + ix) + 2]? = some ((ix + 1) + (2 + 1) * iy) ∧
      ((mkMesh "w4").SetPlane 0 0 true true true Dims.X Dims.Y 1 1 2 1 0 0 1 2 1
        nilColor).Idx[6 * (iy * 2 + ix) + 3]? = some (ix + (2 + 1) * (iy + 1)) ∧
      ((mkMesh "w4").SetPlane 0 0 true true true Dims.X Dims.Y 1 1 2 1 0 0 1 2 1
        nilColor).Idx[6 * (iy * 2 + ix) + 4]? = some ((ix + 1) + (2 + 1) * (iy + 1)) ∧
      ((mkMesh "w4").SetPlane 0 0 true true true Dims.X Dims.Y 1 1 2 1 0 0 1 2 1
        nilColor).Idx[6 * (iy * 2 + ix) + 5]? = some ((ix + 1) + (2 + 1) * iy) :=
  setPlane_idx_spec (mkMesh "w4") rfl rfl true true Dims.X Dims.Y 1 1 2 1 0 0 1 2 1
    nilColor 2 1 (by decide) (by decide) (by decide) _ rfl

/-- C4 (counterexample): the claim as stated fails for segment counts
that push vertex ids past 32 bits: with wsegs = 2^32 = 4294967296 and
hsegs = 1, at grid cell (ix,iy) = (4294967295, 0) the third emitted
value (corner d = ix+1+(wsegs+1)*iy = 4294967296) wraps to 0 under the
uint32 conversion, so the emitted triangle is not (a,b,d). -/
theorem setPlane_idx_wrap_counterexample :
    ((mkMesh "big").SetPlane 0 0 false false true Dims.X Dims.Y 1 1 1 1 0 0 1
        4294967296 1 nilColor).Idx[6 * (0 * 4294967296 + 4294967295) + 2]? = some 0 ∧
    (4294967295 + 1) + (4294967296 + 1) * (0 : ℕ) ≠ 0 := by
  constructor
  · rw [setPlane_idx_char (mkMesh "big") rfl false false Dims.X Dims.Y 1 1 1 1 0 0 1
      4294967296 1 nilColor]
    have hWm : ((4294967296 : ℤ) ⊔ 1).toNat = 4294967296 := by
      rw [max_eq_left (by norm_num)]
      rfl
    have hHm : ((1 : ℤ) ⊔ 1).toNat = 1 := by
      rw [max_self]
      rfl
    rw [hWm, hHm]
    have hL6 : ∀ l ∈ (gridCells 1 4294967296).map (planeIdxChunk 0 (4294967296 + 1)),
        l.length = 6 := by
      intro l hl
      obtain ⟨c, _, rfl⟩ := List.mem_map.mp hl
      rfl
    have hm : ((gridCells 1 4294967296).map
        (planeIdxChunk 0 (4294967296 + 1)))[0 * 4294967296 + 4294967295]? =
        some (planeIdxChunk 0 (4294967296 + 1) (0, 4294967295)) := by
      rw [List.getElem?_map,
        gridCells_getElem 1 4294967296 0 4294967295 (by norm_num) (by norm_num)]
      rfl
    have h := flatten_getElem 6 _ hL6 (0 * 4294967296 + 4294967295) 2 (by norm_num) _ hm
    rw [h, (planeIdxChunk_elems 0 (4294967296 + 1) (0, 4294967295)).2.2.1]
    decide
  · norm_num

/-- C6: with setNorm=true and distinct width/height axes, on a mesh
whose Norm array is aligned with Vtx (equal lengths, a multiple of 3),
every generated vertex j of the plane receives the same normal: the unit
vector along the axis not used for width or height, with component +1 if
zoff is strictly positive and -1 otherwise (including zoff = 0). -/
theorem setPlane_norm_uniform (ms : MeshBase) (st sti : ℕ) (setT setI : Bool)
    (waxis haxis : Dims) (hax : waxis ≠ haxis) (wdir hdir : ℤ)
    (width height woff hoff zoff : F32) (wsegs hsegs : ℤ) (clr : Gi3d.Color)
    (hlen : ms.Norm.length = ms.Vtx.length) (h3 : 3 ∣ ms.Vtx.length)
    (r : MeshBase)
    (hr : r = ms.SetPlane st sti true setT setI waxis haxis wdir hdir width height
      woff hoff zoff wsegs hsegs clr)
    (j : ℕ) (hj : j < ((max wsegs 1).toNat + 1) * ((max hsegs 1).toNat + 1)) :
    r.Norm[3 * (st + j)]? = some (specNormal waxis haxis zoff).x ∧
    r.Norm[3 * (st + j) + 1]? = some (specNormal waxis haxis zoff).y ∧
    r.Norm[3 * (st + j) + 2]? = some (specNormal waxis haxis zoff).z := by
  subst hr
  set W := (max wsegs 1).toNat with hW
  set H := (max hsegs 1).toNat with hH
  have hclamp := (planeSize_clamped ms wsegs hsegs).1
  rw [← hW, ← hH] at hclamp
  have hj' : j < (H + 1) * (W + 1) := by
    have e := Nat.mul_comm (W + 1) (H + 1)
    omega
  have hcov : 3 * st + 3 * ((H + 1) * (W + 1)) ≤
      (planeExt ms st ((W + 1) * (H + 1)) (!clr.IsNil)).Norm.length := by
    have h := planeExt_norm_cover ms st ((W + 1) * (H + 1)) (!clr.IsNil) hlen h3
    have e : (H + 1) * (W + 1) = (W + 1) * (H + 1) := Nat.mul_comm _ _
    omega
  have hL3 : ∀ l ∈ List.replicate ((H + 1) * (W + 1))
      [(specNormal waxis haxis zoff).x, (specNormal waxis haxis zoff).y,
       (specNormal waxis haxis zoff).z], l.length = 3 := by
    intro l hl
    rw [List.eq_of_mem_replicate hl]
    rfl
  have hrep : (List.replicate ((H + 1) * (W + 1))
      [(specNormal waxis haxis zoff).x, (specNormal waxis haxis zoff).y,
       (specNormal waxis haxis zoff).z])[j]? =
      some [(specNormal waxis haxis zoff).x, (specNormal waxis haxis zoff).y,
       (specNormal waxis haxis zoff).z] := by
    rw [List.getElem?_replicate]
    rw [if_pos hj']
  refine ⟨?_, ?_, ?_⟩ <;>
  · simp only [MeshBase.SetPlane]
    rw [← hW, ← hH, hclamp]
    rw [planeVtxRun_norm]
    rotate_left
    · rfl
    · exact hcov
    dsimp only
    rw [wdim_eq_thirdDim waxis haxis hax, specNormal_def]
    have hTlen : ((planeExt ms st ((W + 1) * (H + 1)) (!clr.IsNil)).Norm.take
        (3 * st)).length = 3 * st := by
      rw [List.length_take]
      omega
    have hFlen : ((List.replicate ((H + 1) * (W + 1))
        [(specNormal waxis haxis zoff).x, (specNormal waxis haxis zoff).y,
         (specNormal waxis haxis zoff).z]).flatten).length = 3 * ((H + 1) * (W + 1)) := by
      rw [flatten_length_const 3 _ hL3, List.length_replicate]
    have hTF : ((planeExt ms st ((W + 1) * (H + 1)) (!clr.IsNil)).Norm.take (3 * st) ++
        (List.replicate ((H + 1) * (W + 1))
          [(specNormal waxis haxis zoff).x, (specNormal waxis haxis zoff).y,
           (specNormal waxis haxis zoff).z]).flatten).length =
        3 * st + 3 * ((H + 1) * (W + 1)) := by
      rw [List.length_append, hTlen, hFlen]
    rw [List.getElem?_append_left (by omega)]
    rw [List.getElem?_append_right (by omega)]
    first
    | (have e1 : 3 * (st + j) - ((planeExt ms st ((W + 1) * (H + 1))
          (!clr.IsNil)).Norm.take (3 * st)).length = 3 * j + 0 := by omega
       rw [e1, flatten_getElem 3 _ hL3 j 0 (by omega) _ hrep]
       rfl)
    | (have e1 : 3 * (st + j) + 1 - ((planeExt ms st ((W + 1) * (H + 1))
          (!clr.IsNil)).Norm.take (3 * st)).length = 3 * j + 1 := by omega
       rw [e1, flatten_getElem 3 _ hL3 j 1 (by omega) _ hrep]
       rfl)
    | (have e1 : 3 * (st + j) + 2 - ((planeExt ms st ((W + 1) * (H + 1))
          (!clr.IsNil)).Norm.take (3 * st)).length = 3 * j + 2 := by omega
       rw [e1, flatten_getElem 3 _ hL3 j 2 (by omega) _ hrep]
       rfl)

/-- C6 (witness): a 1x1 plane written into an empty mesh with waxis=X,
haxis=Y and zoff=0: every vertex receives normal (0,0,-1), checked at
vertex 0. -/
theorem setPlane_norm_uniform_witness :
    ((mkMesh "w6").SetPlane 0 0 true true true Dims.X Dims.Y 1 1 2 2 0 0 0 1 1
        nilColor).Norm[3 * (0 + 0)]? = some (specNormal Dims.X Dims.Y 0).x ∧
    ((mkMesh "w6").SetPlane 0 0 true true true Dims.X Dims.Y 1 1 2 2 0 0 0 1 1
        nilColor).Norm[3 * (0 + 0) + 1]? = some (specNormal Dims.X Dims.Y 0).y ∧
    ((mkMesh "w6").SetPlane 0 0 true true true Dims.X Dims.Y 1 1 2 2 0 0 0 1 1
        nilColor).Norm[3 * (0 + 0) + 2]? = some (specNormal Dims.X Dims.Y 0).z :=
  setPlane_norm_uniform (mkMesh "w6") 0 0 true true Dims.X Dims.Y (by decide) 1 1
    2 2 0 0 0 1 1 nilColor rfl (by decide) _ rfl 0 (by decide)

/-- With the nil color, SetPlane neither extends nor writes the Color
array. -/
theorem setPlane_color_nil_aux (ms : MeshBase) (st sti : ℕ) (setN setT setI : Bool)
    (waxis haxis : Dims) (wdir hdir : ℤ)
    (width height woff hoff zoff : F32) (wsegs hsegs : ℤ) (clr : Gi3d.Color)
    (hnil : clr.IsNil = true) :
    (ms.SetPlane st sti setN setT setI waxis haxis wdir hdir width height woff hoff
      zoff wsegs hsegs clr).Color = ms.Color := by
  simp only [MeshBase.SetPlane]
  rw [hnil]
  simp only [Bool.not_true]
  rw [planeVtxRun_color]
  · exact planeExt_color_false ms st _
  · rfl

/-- SetPlane appending at the end of an aligned vertex array grows Vtx
by exactly one plane's worth of floats. -/
theorem setPlane_vtx_length_append (ms : MeshBase) (sti : ℕ) (setN setT setI : Bool)
    (waxis haxis : Dims) (wdir hdir : ℤ)
    (width height woff hoff zoff : F32) (wsegs hsegs : ℤ) (clr : Gi3d.Color)
    (_h3 : 3 ∣ ms.Vtx.length) :
    (ms.SetPlane (ms.Vtx.length / 3) sti setN setT setI waxis haxis wdir hdir width
      height woff hoff zoff wsegs hsegs clr).Vtx.length =
      ms.Vtx.length + ((max wsegs 1).toNat + 1) * ((max hsegs 1).toNat + 1) * 3 := by
  simp only [MeshBase.SetPlane]
  rw [(planeVtxRun_lengths _ _ _ _ _).1, (planeSize_clamped ms wsegs hsegs).1]
  rw [planeExt_append ms _ _ (by positivity)]
  simp

/-- The full effect of one SetPlane call appending at the end of aligned
arrays: each array grows by exactly the plane's worth of elements, and
every element present before the call is unchanged. -/
theorem setPlane_append_core (ms : MeshBase) (setN setT setI : Bool)
    (waxis haxis : Dims) (wdir hdir : ℤ)
    (width height woff hoff zoff : F32) (wsegs hsegs : ℤ) (clr : Gi3d.Color)
    (h3 : 3 ∣ ms.Vtx.length)
    (hn : ms.Norm.length ≤ 3 * (ms.Vtx.length / 3))
    (ht : ms.Tex.length ≤ 2 * (ms.Vtx.length / 3))
    (hc : ms.Color.length ≤ 4 * (ms.Vtx.length / 3))
    (r : MeshBase) (v i : ℕ)
    (hr : r = ms.SetPlane (ms.Vtx.length / 3) ms.Idx.length setN setT setI waxis haxis
      wdir hdir width height woff hoff zoff wsegs hsegs clr)
    (hv : v = ((max wsegs 1).toNat + 1) * ((max hsegs 1).toNat + 1))
    (hiv : i = (max wsegs 1).toNat * (max hsegs 1).toNat * 6) :
    r.Vtx.length = ms.Vtx.length + v * 3 ∧
    r.Norm.length = ms.Norm.length + v * 3 ∧
    r.Tex.length = ms.Tex.length + v * 2 ∧
    r.Color.length = (if clr.IsNil then ms.Color.length else ms.Color.length + v * 4) ∧
    r.Idx.length = (if setI then ms.Idx.length + i else ms.Idx.length) ∧
    r.Vtx.take ms.Vtx.length = ms.Vtx ∧
    r.Norm.take ms.Norm.length = ms.Norm ∧
    r.Tex.take ms.Tex.length = ms.Tex ∧
    r.Color.take ms.Color.length = ms.Color ∧
    r.Idx.take ms.Idx.length = ms.Idx := by
  subst hr hv hiv
  set W := (max wsegs 1).toNat with hW
  set H := (max hsegs 1).toNat with hH
  have hpos : 0 < (W + 1) * (H + 1) := by positivity
  have hipos : 0 < W * H * 6 := by
    have h1 := segClamp_pos wsegs
    have h2 := segClamp_pos hsegs
    rw [← hW] at h1
    rw [← hH] at h2
    have := Nat.mul_le_mul h1 h2
    omega
  have hext := planeExt_append ms ((W + 1) * (H + 1)) (!clr.IsNil) hpos
  simp only [MeshBase.SetPlane]
  rw [← hW, ← hH, (planeSize_clamped ms wsegs hsegs).1, (planeSize_clamped ms wsegs hsegs).2,
    ← hW, ← hH, hext]
  refine ⟨?_, ?_, ?_, ?_, ?_, ?_, ?_, ?_, ?_, ?_⟩
  · rw [(planeVtxRun_lengths _ _ _ _ _).1]
    simp
  · rw [(planeVtxRun_lengths _ _ _ _ _).2.1]
    simp
  · rw [(planeVtxRun_lengths _ _ _ _ _).2.2.1]
    simp
  · rw [(planeVtxRun_lengths _ _ _ _ _).2.2.2]
    cases hb : clr.IsNil <;> simp [hb]
  · cases setI
    · simp
    · simp only [if_true]
      simp only [planeNewIdx]
      rw [if_pos (by omega)]
      have hfold := idxFold_take ((ms.Vtx.length / 3)) (W + 1)
        (gridCells H W)
        (extendU ms.Idx (ms.Idx.length + W * H * 6 - ms.Idx.length)) ms.Idx.length 0
        (Nat.zero_le _)
      rw [hfold.2]
      simp [extendU]
  · refine ((planeVtxRun_take _ _ _ _ _ ms.Vtx.length ms.Norm.length ms.Tex.length
      ms.Color.length (by omega) (by omega) (by omega) (by omega)).1).trans ?_
    exact List.take_left _ _
  · refine ((planeVtxRun_take _ _ _ _ _ ms.Vtx.length ms.Norm.length ms.Tex.length
      ms.Color.length (by omega) (by omega) (by omega) (by omega)).2.1).trans ?_
    exact List.take_left _ _
  · refine ((planeVtxRun_take _ _ _ _ _ ms.Vtx.length ms.Norm.length ms.Tex.length
      ms.Color.length (by omega) (by omega) (by omega) (by omega)).2.2.1).trans ?_
    exact List.take_left _ _
  · refine ((planeVtxRun_take _ _ _ _ _ ms.Vtx.length ms.Norm.length ms.Tex.length
      ms.Color.length (by omega) (by omega) (by omega) (by omega)).2.2.2).trans ?_
    cases hb : clr.IsNil <;> simp [hb, List.take_left]
  · cases setI
    · simp
    · simp only [if_true]
      simp only [planeNewIdx]
      rw [if_pos (by omega)]
      have hfold := idxFold_take ((ms.Vtx.length / 3)) (W + 1)
        (gridCells H W)
        (extendU ms.Idx (ms.Idx.length + W * H * 6 - ms.Idx.length)) ms.Idx.length
        ms.Idx.length le_rfl
      rw [hfold.1]
      simp only [extendU]
      exact List.take_left _ _

/-- C5: appending two planes into one mesh (first AddPlane on the empty
mesh, second at stVtxIdx equal to the first plane's vtxSize) extends the
arrays by exactly the new elements, yields 3*(v1+v2) vertex floats, and
leaves every element written by the first call unchanged (each of the
first call's arrays is a prefix of the final one). -/
theorem addPlane_append_two (nm : String)
    (waxisA haxisA : Dims) (wdirA hdirA : ℤ)
    (widthA heightA woffA hoffA zoffA : F32) (wsegsA hsegsA : ℤ) (clrA : Gi3d.Color)
    (waxisB haxisB : Dims) (wdirB hdirB : ℤ)
    (widthB heightB woffB hoffB zoffB : F32) (wsegsB hsegsB : ℤ) (clrB : Gi3d.Color)
    (m1 m2 : MeshBase) (v1 v2 : ℕ)
    (hm1 : m1 = (mkMesh nm).AddPlane waxisA haxisA wdirA hdirA widthA heightA woffA
      hoffA zoffA wsegsA hsegsA clrA)
    (hm2 : m2 = m1.AddPlane waxisB haxisB wdirB hdirB widthB heightB woffB hoffB
      zoffB wsegsB hsegsB clrB)
    (hv1 : v1 = ((max wsegsA 1).toNat + 1) * ((max hsegsA 1).toNat + 1))
    (hv2 : v2 = ((max wsegsB 1).toNat + 1) * ((max hsegsB 1).toNat + 1)) :
    m1.Vtx.length = 3 * v1 ∧
    m2.Vtx.length = 3 * (v1 + v2) ∧
    m2.Vtx.take m1.Vtx.length = m1.Vtx ∧
    m2.Norm.take m1.Norm.length = m1.Norm ∧
    m2.Tex.take m1.Tex.length = m1.Tex ∧
    m2.Idx.take m1.Idx.length = m1.Idx ∧
    m2.Color.take m1.Color.length = m1.Color := by
  rw [MeshBase.AddPlane] at hm1 hm2
  have c1 := setPlane_append_core (mkMesh nm) true true true waxisA haxisA wdirA hdirA
    widthA heightA woffA hoffA zoffA wsegsA hsegsA clrA ⟨0, rfl⟩
    (by simp [mkMesh]) (by simp [mkMesh]) (by simp [mkMesh]) m1 v1
    ((max wsegsA 1).toNat * (max hsegsA 1).toNat * 6) hm1 hv1 rfl
  obtain ⟨a1, a2, a3, a4, a5, _, _, _, _, _⟩ := c1
  simp only [mkMesh, List.length_nil, Nat.zero_add] at a1 a2 a3 a4 a5
  have hc4 : m1.Color.length ≤ v1 * 4 := by
    by_cases h : clrA.IsNil = true
    · rw [if_pos h] at a4
      omega
    · rw [if_neg h] at a4
      omega
  have c2 := setPlane_append_core m1 true true true waxisB haxisB wdirB hdirB
    widthB heightB woffB hoffB zoffB wsegsB hsegsB clrB ⟨v1, by omega⟩
    (by omega) (by omega) (by omega) m2 v2
    ((max wsegsB 1).toNat * (max hsegsB 1).toNat * 6) hm2 hv2 rfl
  obtain ⟨b1, _, _, _, _, b6, b7, b8, b9, b10⟩ := c2
  exact ⟨by omega, by omega, b6, b7, b8, b10, b9⟩

/-- C10: with the nil color, neither SetPlane nor AddPlane extends or
writes the Color array — it is exactly the Color array held before the
call; consequently, appending an uncolored plane to a mesh that already
has per-vertex color (color count = vertex count = k > 0) leaves the
color count strictly smaller than the vertex count, so the mesh no
longer satisfies the all-or-nothing color invariant. -/
theorem setPlane_nil_color_spec :
    (∀ (ms : MeshBase) (st sti : ℕ) (setN setT setI : Bool) (waxis haxis : Dims)
       (wdir hdir : ℤ) (width height woff hoff zoff : F32) (wsegs hsegs : ℤ)
       (clr : Gi3d.Color), clr.IsNil = true →
       (ms.SetPlane st sti setN setT setI waxis haxis wdir hdir width height woff hoff
         zoff wsegs hsegs clr).Color = ms.Color ∧
       (ms.AddPlane waxis haxis wdir hdir width height woff hoff zoff wsegs hsegs
         clr).Color = ms.Color) ∧
    (∀ (ms : MeshBase) (waxis haxis : Dims) (wdir hdir : ℤ)
       (width height woff hoff zoff : F32) (wsegs hsegs : ℤ) (clr : Gi3d.Color)
       (k : ℕ), clr.IsNil = true → 0 < k → ms.Color.length = 4 * k →
       ms.Vtx.length = 3 * k →
       (ms.AddPlane waxis haxis wdir hdir width height woff hoff zoff wsegs hsegs
         clr).Color.length / 4 <
       (ms.AddPlane waxis haxis wdir hdir width height woff hoff zoff wsegs hsegs
         clr).Vtx.length / 3) := by
  constructor
  · intro ms st sti setN setT setI waxis haxis wdir hdir width height woff hoff zoff
      wsegs hsegs clr hnil
    refine ⟨setPlane_color_nil_aux ms st sti setN setT setI waxis haxis wdir hdir
      width height woff hoff zoff wsegs hsegs clr hnil, ?_⟩
    rw [MeshBase.AddPlane]
    exact setPlane_color_nil_aux ms _ _ true true true waxis haxis wdir hdir
      width height woff hoff zoff wsegs hsegs clr hnil
  · intro ms waxis haxis wdir hdir width height woff hoff zoff wsegs hsegs clr k
      hnil hk hcol hvtx
    have hC : (ms.AddPlane waxis haxis wdir hdir width height woff hoff zoff wsegs
        hsegs clr).Color = ms.Color := by
      rw [MeshBase.AddPlane]
      exact setPlane_color_nil_aux ms _ _ true true true waxis haxis wdir hdir
        width height woff hoff zoff wsegs hsegs clr hnil
    have hV : (ms.AddPlane waxis haxis wdir hdir width height woff hoff zoff wsegs
        hsegs clr).Vtx.length =
        ms.Vtx.length + ((max wsegs 1).toNat + 1) * ((max hsegs 1).toNat + 1) * 3 := by
      rw [MeshBase.AddPlane]
      exact setPlane_vtx_length_append ms ms.Idx.length true true true waxis haxis
        wdir hdir width height woff hoff zoff wsegs hsegs clr ⟨k, by omega⟩
    rw [hC, hV, hcol, hvtx]
    have hp : 0 < ((max wsegs 1).toNat + 1) * ((max hsegs 1).toNat + 1) := by positivity
    omega

/-- C10 (witness): a one-vertex mesh with per-vertex color, given an
uncolored 1x1 plane: the color array is untouched and the color count
falls below the vertex count. -/
theorem setPlane_nil_color_spec_witness :
    (msW10.SetPlane 0 0 true true true Dims.X Dims.Y 1 1 2 2 0 0 1 1 1
        nilColor).Color = msW10.Color ∧
    (msW10.AddPlane Dims.X Dims.Y 1 1 2 2 0 0 1 1 1 nilColor).Color.length / 4 <
      (msW10.AddPlane Dims.X Dims.Y 1 1 2 2 0 0 1 1 1 nilColor).Vtx.length / 3 :=
  ⟨(setPlane_nil_color_spec.1 msW10 0 0 true true true Dims.X Dims.Y 1 1 2 2 0 0 1 1 1
      nilColor rfl).1,
   setPlane_nil_color_spec.2 msW10 Dims.X Dims.Y 1 1 2 2 0 0 1 1 1 nilColor 1 rfl
     (by decide) (by decide) (by decide)⟩

/-- C5 (witness): two 1x1 planes appended into one mesh: 12 then 24
vertex floats, with the first plane's data a prefix of the final
arrays. -/
theorem addPlane_append_two_witness :
    ((mkMesh "w5").AddPlane Dims.X Dims.Y 1 1 2 2 0 0 1 1 1 nilColor).Vtx.length =
      3 * 4 ∧
    (((mkMesh "w5").AddPlane Dims.X Dims.Y 1 1 2 2 0 0 1 1 1 nilColor).AddPlane
      Dims.X Dims.Z 1 1 2 2 0 0 (-1) 1 1 nilColor).Vtx.length = 3 * (4 + 4) ∧
    (((mkMesh "w5").AddPlane Dims.X Dims.Y 1 1 2 2 0 0 1 1 1 nilColor).AddPlane
      Dims.X Dims.Z 1 1 2 2 0 0 (-1) 1 1 nilColor).Vtx.take
      ((mkMesh "w5").AddPlane Dims.X Dims.Y 1 1 2 2 0 0 1 1 1 nilColor).Vtx.length =
      ((mkMesh "w5").AddPlane Dims.X Dims.Y 1 1 2 2 0 0 1 1 1 nilColor).Vtx ∧
    (((mkMesh "w5").AddPlane Dims.X Dims.Y 1 1 2 2 0 0 1 1 1 nilColor).AddPlane
      Dims.X Dims.Z 1 1 2 2 0 0 (-1) 1 1 nilColor).Norm.take
      ((mkMesh "w5").AddPlane Dims.X Dims.Y 1 1 2 2 0 0 1 1 1 nilColor).Norm.length =
      ((mkMesh "w5").AddPlane Dims.X Dims.Y 1 1 2 2 0 0 1 1 1 nilColor).Norm ∧
    (((mkMesh "w5").AddPlane Dims.X Dims.Y 1 1 2 2 0 0 1 1 1 nilColor).AddPlane
      Dims.X Dims.Z 1 1 2 2 0 0 (-1) 1 1 nilColor).Tex.take
      ((mkMesh "w5").AddPlane Dims.X Dims.Y 1 1 2 2 0 0 1 1 1 nilColor).Tex.length =
      ((mkMesh "w5").AddPlane Dims.X Dims.Y 1 1 2 2 0 0 1 1 1 nilColor).Tex ∧
    (((mkMesh "w5").AddPlane Dims.X Dims.Y 1 1 2 2 0 0 1 1 1 nilColor).AddPlane
      Dims.X Dims.Z 1 1 2 2 0 0 (-1) 1 1 nilColor).Idx.take
      ((mkMesh "w5").AddPlane Dims.X Dims.Y 1 1 2 2 0 0 1 1 1 nilColor).Idx.length =
      ((mkMesh "w5").AddPlane Dims.X Dims.Y 1 1 2 2 0 0 1 1 1 nilColor).Idx ∧
    (((mkMesh "w5").AddPlane Dims.X Dims.Y 1 1 2 2 0 0 1 1 1 nilColor).AddPlane
      Dims.X Dims.Z 1 1 2 2 0 0 (-1) 1 1 nilColor).Color.take
      ((mkMesh "w5").AddPlane Dims.X Dims.Y 1 1 2 2 0 0 1 1 1 nilColor).Color.length =
      ((mkMesh "w5").AddPlane Dims.X Dims.Y 1 1 2 2 0 0 1 1 1 nilColor).Color :=
  addPlane_append_two "w5" Dims.X Dims.Y 1 1 2 2 0 0 1 1 1 nilColor
    Dims.X Dims.Z 1 1 2 2 0 0 (-1) 1 1 nilColor _ _ 4 4 rfl rfl (by decide) (by decide)

end Gi3d
